import Mathlib

/-!
Shallow embedding of the call-campaign orchestrator and transcript
persistence pipeline: the contact store (`csv_manager.py`), the campaign
scheduler (`call_manager.py`), the conversation event sink
(`redis_logger.py`) and the bridge-response renderer of the telephony
gateway
(`telephony_service.py`).  Timestamps are modelled as natural numbers;
Python `None`/`NaN` cells as `Option`; exceptions as `Except` values or
explicit failure parameters.
-/

/-- One row of the facilitators CSV (`csv_manager.py`).  `last_called` and
`call_attempts` may be missing (`NaN` in pandas), hence `Option`. -/
structure ContactRec where
  name : String
  phone_number : String
  status : String
  last_called : Option Nat
  call_attempts : Option Nat
  notes : String
  onboarding_completed : Bool
deriving Repr, DecidableEq

/-- The dictionary returned by `CSVManager.get_next_facilitator`
(lines 64-73): the pandas index plus the fields of the row, with a missing
`call_attempts` coerced to `0`. -/
structure Facilitator where
  index : Nat
  name : String
  phone_number : String
  status : String
  last_called : Option Nat
  call_attempts : Nat
  notes : String
  onboarding_completed : Bool
deriving Repr, DecidableEq

/-- Strict order on optional timestamps / counters with `none` (NaN)
ranking before every value, as the pandas option `na_position` set to
first sorts. -/
def optLTb : Option Nat → Option Nat → Bool
  | none, none => false
  | none, some _ => true
  | some _, none => false
  | some a, some b => decide (a < b)

/-- Reflexive order on optional values, `none` first. -/
def optLEb : Option Nat → Option Nat → Bool
  | none, _ => true
  | some _, none => false
  | some a, some b => decide (a ≤ b)

/-- The lexicographic sort key used by the sort over the columns
`call_attempts` then `last_called`, nulls first, in `csv_manager.py`
line 60. -/
def keyLE (c d : ContactRec) : Bool :=
  optLTb c.call_attempts d.call_attempts ||
    (c.call_attempts == d.call_attempts && optLEb c.last_called d.last_called)

/-- The sort relation on indexed rows. -/
def keyRel (p q : Nat × ContactRec) : Prop := keyLE p.2 q.2 = true

instance : DecidableRel keyRel := fun _ _ => inferInstanceAs (Decidable (_ = true))

theorem optLTb_irrefl (a : Option Nat) : optLTb a a = false := by
  cases a <;> simp [optLTb]

theorem optLTb_asymm {a b : Option Nat} (h : optLTb a b = true) : optLTb b a = false := by
  cases a <;> cases b <;> simp_all [optLTb] <;> omega

theorem optLEb_not_ltb {a b : Option Nat} (h : optLEb a b = true) : optLTb b a = false := by
  cases a <;> cases b <;> simp_all [optLTb, optLEb]

theorem optLTb_eq_of_not {a b : Option Nat} (h1 : optLTb a b = false)
    (h2 : optLTb b a = false) : a = b := by
  cases a <;> cases b <;> simp_all [optLTb] <;> omega

theorem optLEb_refl (a : Option Nat) : optLEb a a = true := by
  cases a <;> simp [optLEb]

theorem optLEb_total (a b : Option Nat) : optLEb a b = true ∨ optLEb b a = true := by
  cases a <;> cases b <;> simp [optLEb] <;> omega

theorem optLTb_trans {a b c : Option Nat} (h1 : optLTb a b = true)
    (h2 : optLTb b c = true) : optLTb a c = true := by
  cases a <;> cases b <;> cases c <;> simp_all [optLTb] <;> omega

theorem optLEb_trans {a b c : Option Nat} (h1 : optLEb a b = true)
    (h2 : optLEb b c = true) : optLEb a c = true := by
  cases a <;> cases b <;> cases c <;> simp_all [optLEb] <;> omega

instance : IsTotal (Nat × ContactRec) keyRel := by
  constructor
  intro p q
  unfold keyRel keyLE
  by_cases h1 : optLTb p.2.call_attempts q.2.call_attempts = true
  · left; simp [h1]
  · by_cases h2 : optLTb q.2.call_attempts p.2.call_attempts = true
    · right; simp [h2]
    · have he : p.2.call_attempts = q.2.call_attempts :=
        optLTb_eq_of_not (by simpa using h1) (by simpa using h2)
      rcases optLEb_total p.2.last_called q.2.last_called with h | h
      · left; simp [he, h]
      · right; simp [he, h]

instance : IsTrans (Nat × ContactRec) keyRel := by
  constructor
  intro p q r hpq hqr
  unfold keyRel keyLE at *
  simp only [Bool.or_eq_true, Bool.and_eq_true, beq_iff_eq] at hpq hqr ⊢
  rcases hpq with h1 | ⟨he1, hl1⟩
  · rcases hqr with h2 | ⟨he2, hl2⟩
    · exact Or.inl (optLTb_trans h1 h2)
    · exact Or.inl (he2 ▸ h1)
  · rcases hqr with h2 | ⟨he2, hl2⟩
    · exact Or.inl (he1 ▸ h2)
    · exact Or.inr ⟨he1.trans he2, optLEb_trans hl1 hl2⟩

/-- The filter keeping rows whose `onboarding_completed` cell differs
from `True`, over the enumerated rows (`csv_manager.py` line 53),
keeping the pandas index of each row. -/
def pendingOf (l : List ContactRec) : List (Nat × ContactRec) :=
  l.enum.filter (fun p => !p.2.onboarding_completed)

/-- The dictionary built from the selected row (`csv_manager.py`
lines 64-73): `call_attempts` coerced to `0` when missing. -/
def projFacilitator (p : Nat × ContactRec) : Facilitator :=
  { index := p.1
    name := p.2.name
    phone_number := p.2.phone_number
    status := p.2.status
    last_called := p.2.last_called
    call_attempts := p.2.call_attempts.getD 0
    notes := p.2.notes
    onboarding_completed := p.2.onboarding_completed }

/-- Embeds `CSVManager.get_next_facilitator` (`csv_manager.py` lines 47-73):
empty-frame check, pending filter, lexicographic sort, first row. -/
def get_next_facilitator (l : List ContactRec) : Option Facilitator :=
  if l.isEmpty then none
  else if (pendingOf l).isEmpty then none
  else (((pendingOf l).insertionSort keyRel).head?).map projFacilitator

theorem keyRel_refl (p : Nat × ContactRec) : keyRel p p := by
  unfold keyRel keyLE
  simp [optLTb_irrefl, optLEb_refl]

theorem pendingOf_eq_nil_iff (l : List ContactRec) :
    pendingOf l = [] ↔ ∀ c ∈ l, c.onboarding_completed = true := by
  unfold pendingOf
  rw [List.filter_eq_nil_iff]
  constructor
  · intro h c hc
    obtain ⟨p, hp, hpc⟩ : ∃ p ∈ l.enum, Prod.snd p = c := by
      have hmem : c ∈ l.enum.map Prod.snd := by rw [List.enum_map_snd]; exact hc
      exact List.mem_map.mp hmem
    have := h p hp
    simp only [Bool.not_eq_true'] at this
    rw [← hpc]
    simpa using this
  · intro h p hp
    have hmem : p.2 ∈ l := by
      rw [← List.enum_map_snd l]; exact List.mem_map_of_mem _ hp
    simp [h _ hmem]

theorem get_next_sel (l : List ContactRec) (f : Facilitator)
    (h : get_next_facilitator l = some f) :
    ∃ p, p ∈ pendingOf l ∧ projFacilitator p = f ∧ ∀ q ∈ pendingOf l, keyRel p q := by
  unfold get_next_facilitator at h
  split_ifs at h with h1 h2
  cases hs : (pendingOf l).insertionSort keyRel with
  | nil =>
      have hlen := congrArg List.length hs
      simp only [List.length_insertionSort, List.length_nil] at hlen
      rw [List.length_eq_zero] at hlen
      simp [List.isEmpty_iff, hlen] at h2
  | cons a t =>
      rw [hs] at h
      simp only [List.head?_cons, Option.map_some'] at h
      refine ⟨a, ?_, Option.some.inj h, ?_⟩
      · have ha : a ∈ (pendingOf l).insertionSort keyRel := by
          rw [hs]; exact List.mem_cons_self a t
        simpa [List.mem_insertionSort] using ha
      · intro q hq
        have hq' : q ∈ (pendingOf l).insertionSort keyRel := by
          rw [List.mem_insertionSort]; exact hq
        rw [hs] at hq'
        rcases List.mem_cons.mp hq' with rfl | hq''
        · exact keyRel_refl q
        · have hsorted : List.Sorted keyRel (a :: t) := by
            rw [← hs]; exact List.sorted_insertionSort keyRel (pendingOf l)
          exact List.rel_of_sorted_cons hsorted q hq''

theorem get_next_none_iff (l : List ContactRec) :
    get_next_facilitator l = none ↔ ∀ c ∈ l, c.onboarding_completed = true := by
  unfold get_next_facilitator
  split_ifs with h1 h2
  · rw [List.isEmpty_iff] at h1
    subst h1
    simp
  · rw [List.isEmpty_iff] at h2
    exact iff_of_true rfl ((pendingOf_eq_nil_iff l).mp h2)
  · rw [List.isEmpty_iff] at h2
    constructor
    · intro h
      cases hs : (pendingOf l).insertionSort keyRel with
      | nil =>
          have hlen := congrArg List.length hs
          simp only [List.length_insertionSort, List.length_nil] at hlen
          rw [List.length_eq_zero] at hlen
          exact absurd hlen h2
      | cons a t => rw [hs] at h; simp at h
    · intro h
      exact absurd ((pendingOf_eq_nil_iff l).mpr h) h2

/-- Concrete rows used to instantiate the theorems. -/
def janeRec : ContactRec := ⟨"Jane", "+15550001", "pending", none, some 0, "", false⟩

def bobRec : ContactRec := ⟨"Bob", "+15550002", "pending", some 50, some 2, "", false⟩

def doneRec : ContactRec := ⟨"Dana", "+15550009", "completed", some 5, some 3, "", true⟩

/-- C1: for every contact list, `get_next_facilitator` never returns a
contact whose `onboarding_completed` field is true, and it returns `none`
exactly when no contact with `onboarding_completed = false` exists. -/
theorem next_candidate_never_completed_and_none_iff (l : List ContactRec) :
    (∀ f, get_next_facilitator l = some f → f.onboarding_completed = false) ∧
    (get_next_facilitator l = none ↔ ∀ c ∈ l, c.onboarding_completed = true) := by
  constructor
  · intro f hf
    obtain ⟨p, hp, hproj, -⟩ := get_next_sel l f hf
    have hpred := (List.mem_filter.mp hp).2
    simp only [Bool.not_eq_true'] at hpred
    rw [← hproj]
    exact hpred
  · exact get_next_none_iff l

/-- C1 witness: a fully-completed list yields `none`; the list
`[bobRec, janeRec, doneRec]` yields Jane, whose flag is false. -/
theorem next_candidate_never_completed_and_none_iff_witness :
    get_next_facilitator [doneRec] = none ∧
    (⟨1, "Jane", "+15550001", "pending", none, 0, "", false⟩ :
      Facilitator).onboarding_completed = false :=
  ⟨(next_candidate_never_completed_and_none_iff [doneRec]).2.mpr (by decide),
   (next_candidate_never_completed_and_none_iff [bobRec, janeRec, doneRec]).1 _ (by decide)⟩

/-- C3: the selected contact is a pending row that is key-minimal: no
pending row has strictly fewer attempts, and among rows with equal
attempts none has a strictly earlier (nulls-first) `last_called`. -/
theorem next_candidate_priority_order (l : List ContactRec) (f : Facilitator)
    (h : get_next_facilitator l = some f) :
    ∃ p, p ∈ pendingOf l ∧ projFacilitator p = f ∧
      ∀ q ∈ pendingOf l,
        optLTb q.2.call_attempts p.2.call_attempts = false ∧
        (q.2.call_attempts = p.2.call_attempts →
          optLTb q.2.last_called p.2.last_called = false) := by
  obtain ⟨p, hp, hproj, hmin⟩ := get_next_sel l f h
  refine ⟨p, hp, hproj, fun q hq => ?_⟩
  have hle := hmin q hq
  unfold keyRel keyLE at hle
  simp only [Bool.or_eq_true, Bool.and_eq_true, beq_iff_eq] at hle
  rcases hle with hlt | ⟨heq, hlec⟩
  · constructor
    · exact optLTb_asymm hlt
    · intro he
      rw [he] at hlt
      rw [optLTb_irrefl] at hlt
      exact absurd hlt (by simp)
  · constructor
    · rw [heq, optLTb_irrefl]
    · intro _
      exact optLEb_not_ltb hlec

/-- C3 witness: over `[bobRec, janeRec, doneRec]`, Jane (0 attempts,
null `last_called`) is selected and is key-minimal among pending rows. -/
theorem next_candidate_priority_order_witness :
    ∃ p, p ∈ pendingOf [bobRec, janeRec, doneRec] ∧
      projFacilitator p = ⟨1, "Jane", "+15550001", "pending", none, 0, "", false⟩ ∧
      ∀ q ∈ pendingOf [bobRec, janeRec, doneRec],
        optLTb q.2.call_attempts p.2.call_attempts = false ∧
        (q.2.call_attempts = p.2.call_attempts →
          optLTb q.2.last_called p.2.last_called = false) :=
  next_candidate_priority_order [bobRec, janeRec, doneRec] _ (by decide)

/-- The note-append expression of `csv_manager.py` line 83: concatenate
the current notes, a newline, the timestamp, a colon and the new note,
then strip surrounding whitespace. -/
def appendNote (current ts note : String) : String :=
  (current ++ "\n" ++ ts ++ ": " ++ note).trim

/-- Embeds `CSVManager.update_call_status` (`csv_manager.py` lines 75-89): set
`status`, stamp `last_called`, increment `call_attempts` (treating a
missing cell as 0), append a timestamped note when non-empty, and set
`onboarding_completed` when `completed` is passed.  The body is wrapped
in `try/except`, so it never raises; an out-of-range index leaves the
frame unchanged in this model. -/
def update_call_status (l : List ContactRec) (index : Nat) (status notes : String)
    (completed : Bool) (now : Nat) : List ContactRec :=
  match l.get? index with
  | none => l
  | some c =>
      l.set index
        { c with
          status := status
          last_called := some now
          call_attempts := some (c.call_attempts.getD 0 + 1)
          notes := if notes ≠ "" then appendNote c.notes (toString now) notes else c.notes
          onboarding_completed := if completed then true else c.onboarding_completed }

/-- Scheduler state: the CSV frame plus a wall clock advanced at each
status update (`datetime.now()`). -/
structure CMState where
  contacts : List ContactRec
  now : Nat
deriving Repr, DecidableEq

/-- Outcome of one `telephony_service.initiate_outbound_call` invocation
as observed by `make_call`: a success dictionary (whose `call_sid` may be
`None`), a failure dictionary carrying `error`, or a raised exception. -/
inductive TelOutcome where
  | ok (callSid : Option String)
  | fail (err : String)
  | exn (msg : String)
deriving Repr, DecidableEq

/-- The dictionary returned by `CallManager.make_call`
(`call_manager.py` lines 120-156). -/
structure MakeCallResult where
  success : Bool
  facilitator : String
  room_name : Option String
  call_sid : Option String
  error : Option String
deriving Repr, DecidableEq

/-- Python renders the `call_sid` entry of the success dictionary with
the key present but possibly `None`, so a missing SID prints as the
string `None`. -/
def sidText : Option String → String
  | some s => s
  | none => "None"

/-- Embeds `CallManager.make_call` (`call_manager.py` lines 89-156): mark
`in_progress`, build the room name from the contact index and the clock,
run the gateway call (the `TelOutcome` oracle), and mark `called` or
`failed`; an exception inside the attempt is caught and recorded as a
`failed` update whose note carries the exception text. -/
def make_call (st : CMState) (index : Nat) (facName : String)
    (outcome : TelOutcome) : MakeCallResult × CMState :=
  let c1 := update_call_status st.contacts index "in_progress" "Call initiated" false st.now
  let t1 := st.now + 1
  let room := "onboarding-" ++ toString index ++ "-" ++ toString t1
  match outcome with
  | .ok sid =>
      let c2 := update_call_status c1 index "called"
        ("Call initiated successfully. Room: " ++ room ++ ", Call SID: " ++ sidText sid)
        false t1
      (⟨true, facName, some room, sid, none⟩, ⟨c2, t1 + 1⟩)
  | .fail err =>
      let c2 := update_call_status c1 index "failed"
        ("Call initiation failed: " ++ err) false t1
      (⟨false, facName, none, none, some err⟩, ⟨c2, t1 + 1⟩)
  | .exn msg =>
      let c2 := update_call_status c1 index "failed"
        ("Exception during call: " ++ msg) false t1
      (⟨false, facName, none, none, some ("Exception during call: " ++ msg)⟩, ⟨c2, t1 + 1⟩)

/-- The aggregate counters returned by
`CallManager.start_calling_session` (`call_manager.py` lines 82-87). -/
structure SessionResult where
  total_calls : Nat
  successful_calls : Nat
  failed_calls : Nat
deriving Repr, DecidableEq

/-- The `while call_count < self.max_calls_per_session` loop of
`CallManager.start_calling_session` (`call_manager.py` lines 47-72),
with `fuel = max_calls_per_session - call_count`: fetch the next
candidate (stop if none), dial it, bump the success or failure counter,
and continue. -/
def sessionLoop (oracle : Nat → TelOutcome) :
    Nat → Nat → Nat → Nat → CMState → SessionResult × CMState
  | 0, cc, sc, fc, st => (⟨cc, sc, fc⟩, st)
  | fuel + 1, cc, sc, fc, st =>
      match get_next_facilitator st.contacts with
      | none => (⟨cc, sc, fc⟩, st)
      | some f =>
          let r := make_call st f.index f.name (oracle cc)
          if r.1.success then sessionLoop oracle fuel (cc + 1) (sc + 1) fc r.2
          else sessionLoop oracle fuel (cc + 1) sc (fc + 1) r.2

/-- Embeds `CallManager.start_calling_session` (`call_manager.py` lines 25-87):
run the dial loop from zeroed counters up to `maxCalls` attempts. -/
def start_calling_session (maxCalls : Nat) (oracle : Nat → TelOutcome)
    (st : CMState) : SessionResult × CMState :=
  sessionLoop oracle maxCalls 0 0 0 st

/-- The contact frame still holds an eligible (not onboarded) row. -/
def pendingExists (l : List ContactRec) : Bool :=
  l.any fun c => !c.onboarding_completed

/-- The `call_attempts` cell at a row of the frame, coerced to 0 when
missing, as the selection logic reads it. -/
def attemptsAt (l : List ContactRec) (index : Nat) : Nat :=
  match l.get? index with
  | some c => c.call_attempts.getD 0
  | none => 0

/-- The `status` cell at a row of the frame. -/
def statusAt (l : List ContactRec) (index : Nat) : String :=
  match l.get? index with
  | some c => c.status
  | none => ""

/-- The `notes` cell at a row of the frame. -/
def notesAt (l : List ContactRec) (index : Nat) : String :=
  match l.get? index with
  | some c => c.notes
  | none => ""

/-- The `call_attempts` cell in a scheduler state. -/
def attemptsVal (st : CMState) (index : Nat) : Nat :=
  attemptsAt st.contacts index

/-- The `status` cell in a scheduler state. -/
def statusVal (st : CMState) (index : Nat) : String :=
  statusAt st.contacts index

/-- The `notes` cell in a scheduler state. -/
def notesVal (st : CMState) (index : Nat) : String :=
  notesAt st.contacts index

/-- Iterates `make_call` over a list of outcomes against one contact:
a sequence of dial attempts on the same row. -/
def dialSeq (st : CMState) (index : Nat) (facName : String)
    (outcomes : List TelOutcome) : CMState :=
  outcomes.foldl (fun s oc => (make_call s index facName oc).2) st

theorem get_set_self {α : Type} :
    ∀ (l : List α) (i : Nat) (a : α), i < l.length → (l.set i a).get? i = some a
  | [], i, a, h => by simp at h
  | _ :: _, 0, a, _ => rfl
  | x :: xs, i + 1, a, h => by
      simp only [List.set, List.get?]
      exact get_set_self xs i a (by simpa using h)

theorem update_call_status_length (l : List ContactRec) (i : Nat) (s n : String)
    (c : Bool) (t : Nat) : (update_call_status l i s n c t).length = l.length := by
  unfold update_call_status
  cases l.get? i <;> simp

theorem attemptsAt_update (l : List ContactRec) (i : Nat) (s n : String)
    (c : Bool) (t : Nat) (h : i < l.length) :
    attemptsAt (update_call_status l i s n c t) i = attemptsAt l i + 1 := by
  obtain ⟨r, hr⟩ : ∃ r, l.get? i = some r := by
    cases hg : l.get? i with
    | none => rw [List.get?_eq_none] at hg; omega
    | some r => exact ⟨r, rfl⟩
  unfold update_call_status attemptsAt
  rw [hr, get_set_self l i _ h]
  rfl

theorem statusAt_update (l : List ContactRec) (i : Nat) (s n : String)
    (c : Bool) (t : Nat) (h : i < l.length) :
    statusAt (update_call_status l i s n c t) i = s := by
  obtain ⟨r, hr⟩ : ∃ r, l.get? i = some r := by
    cases hg : l.get? i with
    | none => rw [List.get?_eq_none] at hg; omega
    | some r => exact ⟨r, rfl⟩
  unfold update_call_status statusAt
  rw [hr, get_set_self l i _ h]

theorem notesAt_update (l : List ContactRec) (i : Nat) (s n : String)
    (c : Bool) (t : Nat) (h : i < l.length) (hn : n ≠ "") :
    notesAt (update_call_status l i s n c t) i = appendNote (notesAt l i) (toString t) n := by
  obtain ⟨r, hr⟩ : ∃ r, l.get? i = some r := by
    cases hg : l.get? i with
    | none => rw [List.get?_eq_none] at hg; omega
    | some r => exact ⟨r, rfl⟩
  unfold update_call_status notesAt
  rw [hr, get_set_self l i _ h]
  simp [hn]

theorem any_set_congr (p : ContactRec → Bool) :
    ∀ (l : List ContactRec) (i : Nat) (c c1 : ContactRec),
      l.get? i = some c → p c1 = p c → (l.set i c1).any p = l.any p
  | [], i, c, c1, h, _ => by simp at h
  | x :: xs, 0, c, c1, h, hp => by
      simp only [List.get?] at h
      cases h
      simp [List.any_cons, hp]
  | x :: xs, i + 1, c, c1, h, hp => by
      simp only [List.get?] at h
      simp [List.any_cons, any_set_congr p xs i c c1 h hp]

theorem pendingExists_update (l : List ContactRec) (i : Nat) (s n : String) (t : Nat) :
    pendingExists (update_call_status l i s n false t) = pendingExists l := by
  unfold update_call_status
  cases hg : l.get? i with
  | none => rfl
  | some r => exact any_set_congr _ l i r _ hg rfl

theorem make_call_length (st : CMState) (i : Nat) (nm : String) (oc : TelOutcome) :
    ((make_call st i nm oc).2).contacts.length = st.contacts.length := by
  cases oc <;> simp [make_call, update_call_status_length]

theorem make_call_pending (st : CMState) (i : Nat) (nm : String) (oc : TelOutcome) :
    pendingExists ((make_call st i nm oc).2).contacts = pendingExists st.contacts := by
  cases oc <;> simp [make_call, pendingExists_update]

theorem make_call_attempts (st : CMState) (i : Nat) (nm : String) (oc : TelOutcome)
    (h : i < st.contacts.length) :
    attemptsVal (make_call st i nm oc).2 i = attemptsVal st i + 2 := by
  have h1 : i < (update_call_status st.contacts i "in_progress" "Call initiated"
      false st.now).length := by rw [update_call_status_length]; exact h
  cases oc <;>
    simp only [make_call, attemptsVal] <;>
    rw [attemptsAt_update _ _ _ _ _ _ h1, attemptsAt_update _ _ _ _ _ _ h]

theorem dialSeq_attempts (i : Nat) (nm : String) :
    ∀ (outcomes : List TelOutcome) (st : CMState), i < st.contacts.length →
      attemptsVal (dialSeq st i nm outcomes) i = attemptsVal st i + 2 * outcomes.length
  | [], st, _ => by simp [dialSeq]
  | oc :: rest, st, h => by
      have hlen : i < ((make_call st i nm oc).2).contacts.length := by
        rw [make_call_length]; exact h
      have hstep := make_call_attempts st i nm oc h
      have htail := dialSeq_attempts i nm rest (make_call st i nm oc).2 hlen
      simp only [dialSeq, List.foldl_cons] at htail ⊢
      rw [htail, hstep, List.length_cons]
      ring

/-- C2 counterexample: Jane starts at 0 attempts; ONE failed dial through
`make_call` leaves `status = "failed"` but `call_attempts = 2`, not 1 —
`make_call` runs two `update_call_status` calls (`in_progress`, then
`failed`) and each increments the counter. -/
theorem one_failed_dial_attempts_two :
    attemptsVal (make_call ⟨[janeRec], 0⟩ 0 "Jane" (.fail "no answer")).2 0 = 2 ∧
    statusVal (make_call ⟨[janeRec], 0⟩ 0 "Jane" (.fail "no answer")).2 0 = "failed" ∧
    (2 : Nat) ≠ 1 := by
  refine ⟨rfl, rfl, by decide⟩

/-- C2 amended: a sequence of N dial attempts on the same contact raises
`call_attempts` by exactly 2 per attempt — each `make_call` performs two
`update_call_status` calls and each increments — so after any prefix of
k attempts the counter reads its initial value plus 2k (hence it is
strictly monotone in k), and one failed dial leaves `status = "failed"`
with `call_attempts` increased by 2. -/
theorem dial_attempts_double (st : CMState) (i : Nat) (nm : String)
    (h : i < st.contacts.length) :
    (∀ (outcomes : List TelOutcome) (k : Nat), k ≤ outcomes.length →
        attemptsVal (dialSeq st i nm (outcomes.take k)) i = attemptsVal st i + 2 * k) ∧
    (∀ err, statusVal (make_call st i nm (.fail err)).2 i = "failed" ∧
        attemptsVal (make_call st i nm (.fail err)).2 i = attemptsVal st i + 2) := by
  constructor
  · intro outcomes k hk
    have := dialSeq_attempts i nm (outcomes.take k) st h
    rwa [List.length_take, min_eq_left hk] at this
  · intro err
    refine ⟨?_, make_call_attempts st i nm (.fail err) h⟩
    have h1 : i < (update_call_status st.contacts i "in_progress" "Call initiated"
        false st.now).length := by rw [update_call_status_length]; exact h
    simp only [make_call, statusVal]
    rw [statusAt_update _ _ _ _ _ _ h1]

/-- C2 witness: two dials on Jane (one failure then one success) bring
her counter from 0 to 4 = 0 + 2·2. -/
theorem dial_attempts_double_witness :
    attemptsVal (dialSeq ⟨[janeRec], 0⟩ 0 "Jane"
        (([TelOutcome.fail "busy", TelOutcome.ok none]).take 2)) 0 =
      attemptsVal ⟨[janeRec], 0⟩ 0 + 2 * 2 :=
  (dial_attempts_double ⟨[janeRec], 0⟩ 0 "Jane" (by decide)).1
    [TelOutcome.fail "busy", TelOutcome.ok none] 2 (by decide)

theorem get_next_isSome_of_pending (l : List ContactRec)
    (h : pendingExists l = true) : ∃ f, get_next_facilitator l = some f := by
  cases hg : get_next_facilitator l with
  | some f => exact ⟨f, rfl⟩
  | none =>
      rw [get_next_none_iff] at hg
      unfold pendingExists at h
      rw [List.any_eq_true] at h
      obtain ⟨c, hc, hcc⟩ := h
      rw [hg c hc] at hcc
      simp at hcc

theorem sessionLoop_total_pending (oracle : Nat → TelOutcome) :
    ∀ (fuel cc sc fc : Nat) (st : CMState), pendingExists st.contacts = true →
      (sessionLoop oracle fuel cc sc fc st).1.total_calls = cc + fuel := by
  intro fuel
  induction fuel with
  | zero => intro cc sc fc st _; rfl
  | succ n ih =>
      intro cc sc fc st h
      obtain ⟨f, hf⟩ := get_next_isSome_of_pending st.contacts h
      have hp : pendingExists ((make_call st f.index f.name (oracle cc)).2).contacts = true := by
        rw [make_call_pending]; exact h
      simp only [sessionLoop, hf]
      split
      · rw [ih _ _ _ _ hp]; omega
      · rw [ih _ _ _ _ hp]; omega

theorem sessionLoop_total_none (oracle : Nat → TelOutcome)
    (fuel cc sc fc : Nat) (st : CMState) (h : pendingExists st.contacts = false) :
    (sessionLoop oracle fuel cc sc fc st).1.total_calls = cc := by
  have hg : get_next_facilitator st.contacts = none := by
    rw [get_next_none_iff]
    intro c hc
    unfold pendingExists at h
    rw [List.any_eq_false] at h
    have := h c hc
    simpa using this
  cases fuel with
  | zero => rfl
  | succ n => simp [sessionLoop, hg]

/-- C8 counterexample: with `max_calls_per_session = 2` and exactly one
eligible contact, the loop performs 2 dial attempts (re-dialing Jane,
who stays eligible), not min(2, 1) = 1 as the claim states. -/
theorem campaign_single_contact_redial :
    (start_calling_session 2 (fun _ => .fail "busy") ⟨[janeRec], 0⟩).1.total_calls = 2 ∧
    ([janeRec].filter (fun c => !c.onboarding_completed)).length = 1 ∧
    (start_calling_session 2 (fun _ => .fail "busy") ⟨[janeRec], 0⟩).1.total_calls ≠
      min 2 ([janeRec].filter (fun c => !c.onboarding_completed)).length := by
  refine ⟨by decide, by decide, by decide⟩

/-- C8 amended: `start_calling_session` performs exactly
`max_calls_per_session` dial attempts whenever at least one eligible
(not onboarded) contact exists — a dialed contact stays eligible, since
no status update of the loop sets `onboarding_completed` — and 0
attempts when no eligible contact exists.  (The claimed
min(max_calls, #eligible) bound only coincides with this when
#eligible is 0 or ≥ max_calls.) -/
theorem campaign_attempt_count (maxCalls : Nat) (oracle : Nat → TelOutcome)
    (st : CMState) :
    (pendingExists st.contacts = true →
      (start_calling_session maxCalls oracle st).1.total_calls = maxCalls) ∧
    (pendingExists st.contacts = false →
      (start_calling_session maxCalls oracle st).1.total_calls = 0) := by
  constructor
  · intro h
    have := sessionLoop_total_pending oracle maxCalls 0 0 0 st h
    simpa [start_calling_session] using this
  · intro h
    exact sessionLoop_total_none oracle maxCalls 0 0 0 st h

/-- C8 witness: two eligible contacts, `max_calls = 2`: exactly 2
attempts; an exhausted list: 0 attempts. -/
theorem campaign_attempt_count_witness :
    (start_calling_session 2 (fun _ => .fail "busy") ⟨[janeRec, bobRec, doneRec], 0⟩).1.total_calls = 2 ∧
    (start_calling_session 2 (fun _ => .fail "busy") ⟨[doneRec], 0⟩).1.total_calls = 0 :=
  ⟨(campaign_attempt_count 2 (fun _ => .fail "busy") ⟨[janeRec, bobRec, doneRec], 0⟩).1 (by decide),
   (campaign_attempt_count 2 (fun _ => .fail "busy") ⟨[doneRec], 0⟩).2 (by decide)⟩

theorem exn_note_ne (msg : String) : ("Exception during call: " ++ msg) ≠ "" := by
  intro h
  have hlen := congrArg String.length h
  rw [String.length_append] at hlen
  have h23 : ("Exception during call: " : String).length = 23 := rfl
  have h0 : ("" : String).length = 0 := rfl
  omega

theorem sessionLoop_failed_exn (msg : String) :
    ∀ (fuel cc sc fc : Nat) (st : CMState), pendingExists st.contacts = true →
      (sessionLoop (fun _ => .exn msg) fuel cc sc fc st).1.failed_calls = fc + fuel := by
  intro fuel
  induction fuel with
  | zero => intro cc sc fc st _; rfl
  | succ n ih =>
      intro cc sc fc st h
      obtain ⟨f, hf⟩ := get_next_isSome_of_pending st.contacts h
      have hp : pendingExists ((make_call st f.index f.name (.exn msg)).2).contacts = true := by
        rw [make_call_pending]; exact h
      have hsucc : (make_call st f.index f.name (TelOutcome.exn msg)).1.success = false := rfl
      simp only [sessionLoop, hf]
      split
      · next hcond => rw [hsucc] at hcond; simp at hcond
      · next _ => rw [ih _ _ _ _ hp]; omega

/-- C9: an exception raised inside one dial attempt is contained in
`make_call`: the result reports failure (no raise), the row of the
contact is
updated to `status = "failed"` with the exception text appended as the
latest notes entry, and a campaign whose every attempt raises still runs
its full quota of attempts, all counted as failures. -/
theorem make_call_exception_contained :
    (∀ (st : CMState) (i : Nat) (nm msg : String), i < st.contacts.length →
      (make_call st i nm (.exn msg)).1.success = false ∧
      (make_call st i nm (.exn msg)).1.error = some ("Exception during call: " ++ msg) ∧
      statusVal (make_call st i nm (.exn msg)).2 i = "failed" ∧
      ∃ pre ts, notesVal (make_call st i nm (.exn msg)).2 i =
        appendNote pre ts ("Exception during call: " ++ msg)) ∧
    (∀ (maxCalls : Nat) (msg : String) (st : CMState), pendingExists st.contacts = true →
      (start_calling_session maxCalls (fun _ => .exn msg) st).1.total_calls = maxCalls ∧
      (start_calling_session maxCalls (fun _ => .exn msg) st).1.failed_calls = maxCalls) := by
  constructor
  · intro st i nm msg h
    have h1 : i < (update_call_status st.contacts i "in_progress" "Call initiated"
        false st.now).length := by rw [update_call_status_length]; exact h
    refine ⟨rfl, rfl, ?_, ?_⟩
    · simp only [make_call, statusVal]
      rw [statusAt_update _ _ _ _ _ _ h1]
    · refine ⟨notesAt (update_call_status st.contacts i "in_progress" "Call initiated"
        false st.now) i, toString (st.now + 1), ?_⟩
      simp only [make_call, notesVal]
      exact notesAt_update _ _ _ _ _ _ h1 (exn_note_ne msg)
  · intro maxCalls msg st h
    constructor
    · have := sessionLoop_total_pending (fun _ => .exn msg) maxCalls 0 0 0 st h
      simpa [start_calling_session] using this
    · have := sessionLoop_failed_exn msg maxCalls 0 0 0 st h
      simpa [start_calling_session] using this

/-- C9 witness: a raising dial on Jane reports failure instead of
raising, and a 1-attempt campaign where the attempt raises still
completes with one failed call. -/
theorem make_call_exception_contained_witness :
    (make_call ⟨[janeRec], 0⟩ 0 "Jane" (.exn "boom")).1.success = false ∧
    (start_calling_session 1 (fun _ => .exn "boom") ⟨[janeRec], 0⟩).1.failed_calls = 1 :=
  ⟨(make_call_exception_contained.1 ⟨[janeRec], 0⟩ 0 "Jane" "boom" (by decide)).1,
   (make_call_exception_contained.2 1 "boom" ⟨[janeRec], 0⟩ (by decide)).2⟩

/-- Computes `user_id` after a sequence of `participant_joined` events
(`redis_logger.py` lines 76-82): starting from `"unknown"`, every event
whose identity does not start with `"agent"` overwrites the binding. -/
def rememberUser (events : List String) : String :=
  events.foldl (fun uid ident => if ident.startsWith "agent" then uid else ident) "unknown"

theorem rememberUser_foldl (acc : String) :
    ∀ events : List String,
      events.foldl (fun uid ident => if ident.startsWith "agent" then uid else ident) acc =
        (events.filter (fun s => !s.startsWith "agent")).getLastD acc
  | [] => rfl
  | e :: rest => by
      by_cases he : e.startsWith "agent"
      · have h1 : List.filter (fun s => !s.startsWith "agent") (e :: rest) =
            List.filter (fun s => !s.startsWith "agent") rest := by
          simp [List.filter_cons, he]
        rw [List.foldl_cons, if_pos he, h1]
        exact rememberUser_foldl acc rest
      · have h1 : List.filter (fun s => !s.startsWith "agent") (e :: rest) =
            e :: List.filter (fun s => !s.startsWith "agent") rest := by
          simp [List.filter_cons, he]
        rw [List.foldl_cons, if_neg he, h1, List.getLastD_cons]
        exact rememberUser_foldl e rest

/-- C5 counterexample: two non-agent participants join; the recorded
identity is the second one ("bob"), not the first ("alice") as the
first-match-wins rule of the claim requires — the handler has no one-shot
guard and overwrites on every non-agent join. -/
theorem remember_user_last_join_cex :
    rememberUser ["alice", "bob"] = "bob" ∧ "bob" ≠ "alice" := by
  refine ⟨rfl, by decide⟩

/-- C5 amended: the identity recorded as the human party is that of the
LAST joining participant whose identity does not start with `"agent"`
(each such join overwrites the binding), `"unknown"` when there is
none; joins with an agent-prefixed identity are ignored. -/
theorem remember_user_last_nonagent (events : List String) :
    rememberUser events =
      (events.filter (fun s => !s.startsWith "agent")).getLastD "unknown" :=
  rememberUser_foldl "unknown" events

/-- One entry of `session.history` as `_flush_history` reads it:
a `role` and an optional `text_content` (absent or empty entries are
skipped by the `hasattr ... and item.text_content` guard). -/
structure HistItem where
  role : String
  text_content : Option String
deriving Repr, DecidableEq

/-- The `full_transcript` accumulation loop of `_flush_history`
(`redis_logger.py` lines 142-146): one `"<Role>: <text>\n"` line per
item with non-empty text, `"Agent"` for the assistant role and
`"Facilitator"` for every other role. -/
def transcriptOf (history : List HistItem) : String :=
  history.foldl
    (fun acc item =>
      match item.text_content with
      | some t =>
          if t ≠ "" then
            acc ++ (if item.role == "assistant" then "Agent" else "Facilitator") ++ ": " ++ t ++ "\n"
          else acc
      | none => acc)
    ""

/-- The keyword arguments of one `db_manager.update_call_status` call
issued from `_flush_history` (`redis_logger.py` lines 149-155 and
164-168). -/
structure DbCallUpdate where
  call_id : String
  status : String
  call_end_time : Option Nat
  call_duration_seconds : Option Nat
  full_transcript : Option String
  notes : Option String
deriving Repr, DecidableEq

/-- What the shutdown hook did: whether the Redis archive key was
written, and the final database update it issued (if any). -/
structure FlushResult where
  archiveWritten : Bool
  dbUpdate : Option DbCallUpdate
deriving Repr, DecidableEq

/-- The `try` block of `_flush_history` (`redis_logger.py`
lines 130-157): write the Redis archive (may raise), then — when the
database is available — compute the duration and transcript and update
the call to `completed` (may raise).  The first component records
whether the archive write happened before any raise. -/
def flushTry (dbAvailable : Bool) (redisSetFail dbUpdateFail : Option String)
    (dbCallId : String) (history : List HistItem) (startTime endTime : Nat) :
    Bool × Except String (Option DbCallUpdate) :=
  match redisSetFail with
  | some e => (false, .error e)
  | none =>
      if dbAvailable then
        match dbUpdateFail with
        | some e => (true, .error e)
        | none =>
            (true, .ok (some
              { call_id := dbCallId
                status := "completed"
                call_end_time := some endTime
                call_duration_seconds := some (endTime - startTime)
                full_transcript := some (transcriptOf history)
                notes := none }))
      else (true, .ok none)

/-- The failure-marking update attempted in the `except` branch of
`_flush_history` (`redis_logger.py` lines 164-168), which may itself
raise. -/
def markTry (markFail : Option String) (dbCallId e : String) :
    Except String DbCallUpdate :=
  match markFail with
  | some e2 => .error e2
  | none =>
      .ok
        { call_id := dbCallId
          status := "failed"
          call_end_time := none
          call_duration_seconds := none
          full_transcript := none
          notes := some ("Error during archival: " ++ e) }

/-- Embeds `_flush_history` (`redis_logger.py` lines 129-172), the shutdown
hook: run the `try` block; on an exception, if the database is
available, try to mark the call `failed` with a diagnostic note, and
swallow even a failure of that marking (`except: pass`).  The result
type records a possible escaping exception; the theorems show there is
none. -/
def flushHistory (dbAvailable : Bool) (redisSetFail dbUpdateFail markFail : Option String)
    (dbCallId : String) (history : List HistItem) (startTime endTime : Nat) :
    Except String FlushResult :=
  match flushTry dbAvailable redisSetFail dbUpdateFail dbCallId history startTime endTime with
  | (arch, .ok upd) => .ok ⟨arch, upd⟩
  | (arch, .error e) =>
      if dbAvailable then
        match markTry markFail dbCallId e with
        | .ok upd => .ok ⟨arch, some upd⟩
        | .error _ => .ok ⟨arch, none⟩
      else .ok ⟨arch, none⟩

/-- C4: a call whose committed history is, in order, the assistant turn
"Hi", the user turn "Hello", and the assistant turn "How are you"
archives (database available, no storage failure) with exactly the
transcript "Agent: Hi\nFacilitator: Hello\nAgent: How are you\n" and a
single update of the call session to `status = "completed"` with
`call_duration_seconds = endTime - startTime`, for every call id and
pair of times. -/
theorem flush_scenario_transcript (cid : String) (s e : Nat) :
    flushHistory true none none none cid
      [⟨"assistant", some "Hi"⟩, ⟨"user", some "Hello"⟩, ⟨"assistant", some "How are you"⟩]
      s e =
    .ok ⟨true, some ⟨cid, "completed", some e, some (e - s),
      some "Agent: Hi\nFacilitator: Hello\nAgent: How are you\n", none⟩⟩ := rfl

/-- C7: the shutdown hook never lets an exception escape — for every
combination of archive failure, database-update failure and
failure-marking failure it returns normally — and when the archival
step raises while the failure-marking update succeeds, the call session
is updated to `status = "failed"` with a diagnostic note carrying the
exception text (shown for a raise in the Redis archive write and for a
raise in the completed-update). -/
theorem flush_never_raises_and_marks_failed :
    (∀ (dbA : Bool) (rF dF mF : Option String) (cid : String)
        (hist : List HistItem) (s e : Nat),
      ∃ r, flushHistory dbA rF dF mF cid hist s e = .ok r) ∧
    (∀ (e1 : String) (dF : Option String) (cid : String) (hist : List HistItem) (s e : Nat),
      flushHistory true (some e1) dF none cid hist s e =
        .ok ⟨false, some ⟨cid, "failed", none, none, none,
          some ("Error during archival: " ++ e1)⟩⟩) ∧
    (∀ (e1 cid : String) (hist : List HistItem) (s e : Nat),
      flushHistory true none (some e1) none cid hist s e =
        .ok ⟨true, some ⟨cid, "failed", none, none, none,
          some ("Error during archival: " ++ e1)⟩⟩) := by
  refine ⟨?_, fun e1 dF cid hist s e => rfl, fun e1 cid hist s e => rfl⟩
  intro dbA rF dF mF cid hist s e
  cases dbA <;> cases rF <;> cases dF <;> cases mF <;> exact ⟨_, rfl⟩

/-- The observable behaviour of one `_xadd` call (`redis_logger.py`
lines 85-115) under possible storage failures: the Redis `xadd` runs
first and is not guarded by any `try`, so its exception propagates
(`raised`) and skips the rest of the body; the database write that
follows is wrapped in `try/except`, so its failure is swallowed. -/
structure XaddResult where
  redisWritten : Bool
  dbWritten : Bool
  raised : Option String
deriving Repr, DecidableEq

/-- Embeds `_xadd` (`redis_logger.py` lines 85-115) with failure
oracles for the two stores. -/
def xaddRun (dbAvailable : Bool) (redisFail dbFail : Option String) : XaddResult :=
  match redisFail with
  | some e => ⟨false, false, some e⟩
  | none =>
      if dbAvailable then
        match dbFail with
        | some _ => ⟨true, false, none⟩
        | none => ⟨true, true, none⟩
      else ⟨true, false, none⟩

/-- C6 counterexample: when the ephemeral (Redis) write fails, the
durable-store write for the same turn is NOT performed, and the
exception propagates out of `_xadd` into the dialogue path — the two
writes are not independent in that direction.  (The opposite direction
does hold: a durable-store failure leaves the already-done Redis write
intact.) -/
theorem xadd_redis_failure_blocks_db :
    (xaddRun true (some "redis down") none).dbWritten = false ∧
    (xaddRun true (some "redis down") none).raised = some "redis down" ∧
    (xaddRun true none (some "db down")).redisWritten = true :=
  ⟨rfl, rfl, rfl⟩

/-- C6 amended: the coupling is asymmetric.  A durable-store failure
never affects the ephemeral write (which precedes it) and is swallowed;
but an ephemeral-store failure prevents the durable-store write for
that turn and raises out of `_xadd`. -/
theorem xadd_asymmetric_coupling :
    ∀ (dbA : Bool) (dF : Option String),
      ((xaddRun dbA none dF).redisWritten = true ∧ (xaddRun dbA none dF).raised = none) ∧
      (∀ e, (xaddRun dbA (some e) dF).dbWritten = false ∧
        (xaddRun dbA (some e) dF).raised = some e) := by
  intro dbA dF
  refine ⟨⟨?_, ?_⟩, fun e => ⟨rfl, rfl⟩⟩ <;> cases dbA <;> cases dF <;> rfl

/-- Embeds `TelephonyService.generate_twiml_response` (`telephony_service.py`
lines 163-176): although declared as an f-string of `room_name`, the
template contains no interpolation, so the rendered TwiML document is a
fixed literal. -/
def generate_twiml_response (room_name : String) : String :=
  "<?xml version=\"1.0\" encoding=\"UTF-8\"?>\n<Response>\n    <Say voice=\"alice\">Hello! You are being connected to our onboarding agent. Please hold while we establish the connection.</Say>\n    <Pause length=\"2\"/>\n    <Say voice=\"alice\">Thank you for your patience. Our agent will be with you shortly to discuss the onboarding process.</Say>\n    <Record action=\"/webhook/recording-complete\" method=\"POST\" maxLength=\"300\" timeout=\"10\" />\n</Response>"

/-- C10: the bridge document is character-identical for every pair of
room names — the output does not depend on the `room_name` argument at
all (and the embedded function is pure). -/
theorem twiml_constant (r1 r2 : String) :
    generate_twiml_response r1 = generate_twiml_response r2 := rfl
